import Mathlib

/-!
Shallow embedding of the PhishSafe client-side encryption subsystem:
the crypto utilities (PBKDF2 key derivation, AES-GCM encrypt/decrypt,
record-level field encryption), the IndexedDB key-material store, the
EncryptionContext session state machine, and the rate-limit/lockout
status hook.

Modelling conventions:
- TS strings that are images of JSON.stringify are represented
  symbolically by the inductive PlainStr: serialization is injective,
  its parse is the partial inverse, and a stringify image is never the
  empty string.  These are true facts of the JSON platform primitives,
  which are external to the repository.
- The AES-GCM cipher (a Web Crypto platform primitive, external to the
  repository) is idealized as perfectly authenticated: a ciphertext
  records the plaintext, key and iv that produced it, and decryption
  succeeds exactly when the same key and iv are supplied.
- Timestamps, ivs and remote responses are passed as explicit
  parameters, making every operation a pure function of its inputs.
-/

namespace PhishSafe

/-- Derived symmetric key.  PBKDF2 (a platform primitive) is idealized as
an injective function of passphrase, salt and iteration count; the salt
is carried in its base64 text encoding, which the context passes around
and which decodes injectively to the raw bytes the code feeds PBKDF2. -/
structure Key where
  passphrase : String
  salt : String
  iterations : Nat
deriving DecidableEq, Repr

/-- Embeds deriveKey from the crypto utilities: PBKDF2 with SHA-256,
defaulting to 100000 iterations. -/
def deriveKey (passphrase : String) (salt : String)
    (iterations : Nat := 100000) : Key :=
  { passphrase := passphrase, salt := salt, iterations := iterations }

/-- JSON primitive values. -/
inductive JPrim where
  | jnull : JPrim
  | jbool : Bool → JPrim
  | jnum : Rat → JPrim
  | jstr : String → JPrim
deriving DecidableEq, Repr

/-- JSON object used for the analysisContext payload (Record of string
to unknown in the TS types).  The subsystem never inspects a context
object — it only JSON.stringify-s it before encryption and JSON.parse-s
it after decryption — so values are modelled to primitive depth. -/
structure Json where
  fields : List (String × JPrim)
deriving DecidableEq, Repr

/-- Plaintext mlResult object: is_phishing flag and probability. -/
structure MlResult where
  is_phishing : Bool
  phishing_probability : Rat
deriving DecidableEq, Repr

/-- Verification payload built at setup and at cross-device unlock:
JSON.stringify of a timestamp together with userSub. -/
structure VerifPayload where
  timestamp : Nat
  userSub : String
deriving DecidableEq, Repr

/-- Model of a TS string flowing through the crypto layer: either a
literal string, or the JSON.stringify image of a context object, an
mlResult object, or a verification payload. -/
inductive PlainStr where
  | lit : String → PlainStr
  | jsonCtx : Json → PlainStr
  | jsonMl : MlResult → PlainStr
  | jsonVerif : VerifPayload → PlainStr
deriving DecidableEq, Repr

/-- JS truthiness of a string: the empty string is falsy; a
JSON.stringify image of an object is never empty, hence truthy. -/
def PlainStr.truthy : PlainStr → Bool
  | .lit s => s ≠ ""
  | .jsonCtx _ => true
  | .jsonMl _ => true
  | .jsonVerif _ => true

/-- JSON.parse where an analysisContext object is expected (as in
decryptAnalysisData).  Only stringify images of context objects parse;
other symbolic strings are treated as unparseable. -/
def parseCtx : PlainStr → Except Unit Json
  | .jsonCtx j => .ok j
  | _ => .error ()

/-- JSON.parse where an mlResult object is expected. -/
def parseMl : PlainStr → Except Unit MlResult
  | .jsonMl m => .ok m
  | _ => .error ()

/-- JSON.parse where a verification payload is expected (as in
unlockEncryption on the locally stored key material). -/
def parseVerif : PlainStr → Except Unit VerifPayload
  | .jsonVerif v => .ok v
  | _ => .error ()

/-- Idealized AES-GCM ciphertext: records the plaintext, the key and the
iv used at encryption time. -/
structure Ciphertext where
  plain : PlainStr
  key : Key
  iv : Nat
deriving DecidableEq, Repr

/-- Output of the low-level encrypt: base64 ciphertext plus base64 iv.
The iv component is the same iv that parameterized the encryption. -/
structure EncPair where
  ciphertext : Ciphertext
  iv : Nat
deriving DecidableEq, Repr

/-- Embeds encrypt from the crypto utilities (AES-GCM with a 12-byte
random iv); the iv drawn by crypto.getRandomValues is an explicit
parameter. -/
def encrypt (plaintext : PlainStr) (key : Key) (iv : Nat) : EncPair :=
  { ciphertext := { plain := plaintext, key := key, iv := iv }, iv := iv }

/-- Decryption error: AES-GCM authentication failure (wrong key, wrong
iv, or tampered data). -/
inductive CryptoErr where
  | authFailure : CryptoErr
  | parseFailure : CryptoErr
deriving DecidableEq, Repr

/-- Embeds decrypt from the crypto utilities: AES-GCM decryption
succeeds exactly when the supplied key and iv match the ones that
produced the ciphertext, else it throws (authenticated encryption). -/
def decrypt (ciphertext : Ciphertext) (iv : Nat) (key : Key) :
    Except CryptoErr PlainStr :=
  if ciphertext.key = key ∧ ciphertext.iv = iv then
    .ok ciphertext.plain
  else
    .error .authFailure

/-- A TS string holding JSON.stringify of an EncPair, the wire format of
every encrypted field. -/
structure SerializedEnc where
  pair : EncPair
deriving DecidableEq, Repr

/-- Embeds encryptKeyMaterial: encrypt a string and JSON.stringify the
resulting pair. -/
def encryptKeyMaterial (plaintext : PlainStr) (key : Key) (iv : Nat) :
    SerializedEnc :=
  { pair := encrypt plaintext key iv }

/-- Embeds decryptKeyMaterial: JSON.parse the stored pair and decrypt. -/
def decryptKeyMaterial (encd : SerializedEnc) (key : Key) :
    Except CryptoErr PlainStr :=
  decrypt encd.pair.ciphertext encd.pair.iv key

/-- Plaintext analysis record fields passed to encryptAnalysisData;
analysisContext is optional (absent and null are both modelled as
none, matching the declared TS type Record or null, optional). -/
structure AnalysisData where
  userEmail : PlainStr
  inputContent : PlainStr
  analysisContext : Option Json
  mlResult : MlResult
deriving DecidableEq, Repr

/-- Output of encryptAnalysisData: all four sensitive fields replaced by
serialized ciphertext/iv pairs. -/
structure EncryptedFields where
  userEmail : SerializedEnc
  inputContent : SerializedEnc
  analysisContext : SerializedEnc
  mlResult : SerializedEnc
deriving DecidableEq, Repr

/-- Input of decryptAnalysisData: analysisContext may be null or absent
on records coming back from the backend. -/
structure EncFieldsIn where
  userEmail : SerializedEnc
  inputContent : SerializedEnc
  analysisContext : Option SerializedEnc
  mlResult : SerializedEnc
deriving DecidableEq, Repr

/-- Output of decryptAnalysisData. -/
structure DecryptedData where
  userEmail : PlainStr
  inputContent : PlainStr
  analysisContext : Option Json
  mlResult : MlResult
deriving DecidableEq, Repr

/-- Embeds encryptAnalysisData: encrypts userEmail, inputContent,
JSON.stringify of analysisContext when present (the empty string when
absent), and JSON.stringify of mlResult, each under its own fresh iv,
then JSON.stringify-wraps each resulting pair. -/
def encryptAnalysisData (data : AnalysisData) (key : Key)
    (iv1 iv2 iv3 iv4 : Nat) : EncryptedFields :=
  { userEmail := { pair := encrypt data.userEmail key iv1 }
  , inputContent := { pair := encrypt data.inputContent key iv2 }
  , analysisContext :=
      { pair := encrypt
          (match data.analysisContext with
            | some j => PlainStr.jsonCtx j
            | none => PlainStr.lit "") key iv3 }
  , mlResult := { pair := encrypt (PlainStr.jsonMl data.mlResult) key iv4 } }

/-- JS truthiness of the base64 ciphertext component: AES-GCM output
always includes the 16-byte authentication tag, so the base64 text is
never empty; the check on contextData.ciphertext is therefore true for
every pair produced by encrypt. -/
def ciphertextTruthy (_c : Ciphertext) : Bool := true

/-- Embeds decryptAnalysisData: JSON.parse each stored field, decrypt
userEmail and inputContent, decrypt the context when a truthy pair with
a truthy ciphertext is present (JSON.parse of the decrypted text when
that text is truthy, null otherwise), and decrypt then JSON.parse the
mlResult. -/
def decryptAnalysisData (encd : EncFieldsIn) (key : Key) :
    Except CryptoErr DecryptedData := do
  let userEmail ← decrypt encd.userEmail.pair.ciphertext encd.userEmail.pair.iv key
  let inputContent ← decrypt encd.inputContent.pair.ciphertext encd.inputContent.pair.iv key
  let analysisContext ←
    match encd.analysisContext with
    | some ctx =>
        if ciphertextTruthy ctx.pair.ciphertext then do
          let text ← decrypt ctx.pair.ciphertext ctx.pair.iv key
          if text.truthy then
            match parseCtx text with
            | .ok j => pure (some j)
            | .error _ => Except.error .parseFailure
          else
            pure none
        else
          pure none
    | none => pure none
  let mlText ← decrypt encd.mlResult.pair.ciphertext encd.mlResult.pair.iv key
  let mlResult ←
    match parseMl mlText with
    | .ok m => pure m
    | .error _ => Except.error .parseFailure
  return { userEmail := userEmail, inputContent := inputContent
         , analysisContext := analysisContext, mlResult := mlResult }

/-- View of encryptAnalysisData output as decryptAnalysisData input (the
backend stores and returns the same four string fields). -/
def EncryptedFields.toIn (e : EncryptedFields) : EncFieldsIn :=
  { userEmail := e.userEmail, inputContent := e.inputContent
  , analysisContext := some e.analysisContext, mlResult := e.mlResult }

/-! IndexedDB key-material store (one record per userSub). -/

/-- Value of the encryptedKeyMaterial field of a store record: either
the empty string (written by clearEncryptedKey) or the JSON.stringify
of an encrypted pair (written by storeEncryptedKey). -/
inductive BlobField where
  | empty : BlobField
  | enc : EncPair → BlobField
deriving DecidableEq, Repr

/-- JS truthiness of a blob field: the empty string is falsy. -/
def BlobField.truthy : BlobField → Bool
  | .empty => false
  | .enc _ => true

/-- One IndexedDB record, keyed by userSub.  The salt and updatedAt
fields are optional because storeEncryptedKey writes a record without
them (IndexedDB put replaces the whole object). -/
structure StoreRecord where
  encryptedKeyMaterial : BlobField
  salt : Option String
  createdAt : Nat
  updatedAt : Option Nat
deriving DecidableEq, Repr

/-- The IndexedDB object store: an association list from userSub to
record, unique keys (keyPath userSub). -/
def Store := List (String × StoreRecord)

instance : DecidableEq Store := by
  unfold Store
  infer_instance

/-- IndexedDB get by key. -/
def Store.find (s : Store) (userSub : String) : Option StoreRecord :=
  (s.find? (fun p => p.1 = userSub)).map (·.2)

/-- IndexedDB put: replaces the record with the same key, or adds it. -/
def Store.put (s : Store) (userSub : String) (r : StoreRecord) : Store :=
  if (s.find? (fun p => p.1 = userSub)).isSome then
    s.map (fun p => if p.1 = userSub then (userSub, r) else p)
  else
    (userSub, r) :: s

/-- Embeds storeEncryptedKey: put a record holding userSub, the
encrypted key material and createdAt — with no salt or updatedAt field
(the put replaces any existing record whole). -/
def storeEncryptedKey (s : Store) (userSub : String)
    (encryptedKeyMaterial : SerializedEnc) (now : Nat) : Store :=
  s.put userSub
    { encryptedKeyMaterial := .enc encryptedKeyMaterial.pair
    , salt := none, createdAt := now, updatedAt := none }

/-- Embeds getEncryptedKey: the encryptedKeyMaterial field of the record
when one exists, null otherwise. -/
def getEncryptedKey (s : Store) (userSub : String) : Option BlobField :=
  (s.find userSub).map (·.encryptedKeyMaterial)

/-- Embeds hasEncryptedKey: getEncryptedKey compared against null.  Note
that an empty-string blob still counts as present. -/
def hasEncryptedKey (s : Store) (userSub : String) : Bool :=
  (getEncryptedKey s userSub).isSome

/-- Embeds clearEncryptedKey: when a record exists, put it back with the
blob blanked, salt preserved (an absent salt becomes the empty string
via the JS or-default), createdAt kept and updatedAt refreshed; when no
record exists, do nothing. -/
def clearEncryptedKey (s : Store) (userSub : String) (now : Nat) : Store :=
  match s.find userSub with
  | some existing =>
      s.put userSub
        { encryptedKeyMaterial := .empty
        , salt := some ((existing.salt.getD ""))
        , createdAt := existing.createdAt
        , updatedAt := some now }
  | none => s

/-- Truthiness of the value getEncryptedKey returns, as callers test it
(null and the empty string are both falsy in JS). -/
def blobOptTruthy : Option BlobField → Bool
  | none => false
  | some b => b.truthy

/-! Encryption session manager (EncryptionContext). -/

/-- JS truthiness of an optional string (null and the empty string are
falsy). -/
def strOptTruthy : Option String → Bool
  | none => false
  | some s => s ≠ ""

/-- Parsed JSON body of the backend encryption-status endpoint. -/
structure StatusData where
  hasSalt : Bool
  hasAnalyses : Bool
  salt : Option String
deriving DecidableEq, Repr

/-- Outcome of the status fetch: a parsed body, or a network/HTTP
failure (a thrown fetch and a non-ok response produce the same
observable result in getEncryptionStatus). -/
inductive StatusResp where
  | ok : StatusData → StatusResp
  | err : StatusResp
deriving DecidableEq, Repr

/-- Outcome of the analyses list fetch used for cross-device
verification: a page of encrypted records, or a network/HTTP failure. -/
inductive ListResp where
  | ok : List EncFieldsIn → ListResp
  | err : ListResp
deriving DecidableEq, Repr

/-- In-memory state of the EncryptionProvider, together with the local
IndexedDB store it reads and writes.  isLoading is omitted: it is a UI
spinner flag touched by every operation and read by none. -/
structure SessionState where
  isAuthenticated : Bool
  userSub : Option String
  isSetup : Bool
  isUnlocked : Bool
  encryptionKey : Option Key
  userSalt : Option String
  hasCheckedSetup : Bool
  store : Store
deriving DecidableEq

/-- State before sign-in: no key, locked, nothing checked, empty store. -/
def initialState : SessionState :=
  { isAuthenticated := false, userSub := none, isSetup := false
  , isUnlocked := false, encryptionKey := none, userSalt := none
  , hasCheckedSetup := false, store := [] }

/-- Embeds getEncryptionStatus: without a user or on any fetch failure
the default all-false body is returned; on success userSalt is cached
when the body carries a truthy salt, and the returned salt is the body
salt when truthy, null otherwise. -/
def getEncryptionStatus (s : SessionState) (resp : StatusResp) :
    SessionState × StatusData :=
  match s.userSub with
  | none => (s, { hasSalt := false, hasAnalyses := false, salt := none })
  | some _ =>
    match resp with
    | .err => (s, { hasSalt := false, hasAnalyses := false, salt := none })
    | .ok d =>
        let s1 := if strOptTruthy d.salt then { s with userSalt := d.salt } else s
        (s1, { hasSalt := d.hasSalt, hasAnalyses := d.hasAnalyses
             , salt := if strOptTruthy d.salt then d.salt else none })

/-- Embeds the authenticated path of the checkSetup effect body, for
session user u: the two early-return guards, then the local key check,
then the remote status fallback. -/
def checkSetupBody (s : SessionState) (u : String) (resp : StatusResp) :
    SessionState :=
  if s.isUnlocked = true ∧ s.encryptionKey ≠ none then
    s
  else if s.hasCheckedSetup = true ∧ s.isSetup = true then
    s
  else if hasEncryptedKey s.store u then
    { s with isSetup := true, hasCheckedSetup := true,
             isUnlocked := if s.encryptionKey = none then false else s.isUnlocked }
  else
    let s1 := (getEncryptionStatus s resp).1
    let status := (getEncryptionStatus s resp).2
    if status.hasSalt then
      let s2 := if strOptTruthy status.salt then { s1 with userSalt := status.salt } else s1
      { s2 with isSetup := true, hasCheckedSetup := true,
                isUnlocked := if s2.encryptionKey = none then false else s2.isUnlocked }
    else if status.hasAnalyses then
      { s1 with isSetup := false, isUnlocked := false }
    else
      { s1 with isSetup := false, isUnlocked := false }

/-- Embeds the checkSetup effect body.  The remote status response is an
explicit parameter, consumed only when no local key material exists.
The two early-return guards read no part of the subject, so hoisting
the subject match over them preserves the code path exactly. -/
def checkSetup (s : SessionState) (resp : StatusResp) : SessionState :=
  if s.isAuthenticated = false ∨ strOptTruthy s.userSub = false then
    { s with isSetup := false, isUnlocked := false, hasCheckedSetup := false }
  else
    match s.userSub with
    | none => { s with isSetup := false, isUnlocked := false, hasCheckedSetup := false }
    | some u => checkSetupBody s u resp

/-- Embeds lockEncryption: discard the in-memory key, mark the session
locked and reset the setup-check flag.  The IndexedDB store and the
cached salt are deliberately left untouched by the code. -/
def lockEncryption (s : SessionState) : SessionState :=
  { s with encryptionKey := none, isUnlocked := false, hasCheckedSetup := false }

/-- Errors thrown by setupEncryption. -/
inductive SetupErr where
  | notAuthenticated : SetupErr
  | saveSaltFailed : SetupErr
deriving DecidableEq, Repr

/-- Embeds setupEncryption: generate a salt (explicit parameter), derive
the key, store the encrypted verification payload locally, save the
salt remotely, and only then place the key in memory and mark the
session set up and unlocked.  When the remote salt save fails the local
store write has already happened but no key is placed in memory. -/
def setupEncryption (s : SessionState) (passphrase saltB64 : String)
    (now iv : Nat) (saveSaltOk : Bool) : SessionState × Except SetupErr Unit :=
  match s.userSub with
  | none => (s, .error .notAuthenticated)
  | some u =>
    if u = "" then (s, .error .notAuthenticated)
    else
      let key := deriveKey passphrase saltB64
      let verif := PlainStr.jsonVerif { timestamp := now, userSub := u }
      let ekm := encryptKeyMaterial verif key iv
      let store1 := storeEncryptedKey s.store u ekm now
      if saveSaltOk then
        ({ s with store := store1, userSalt := some saltB64,
                  encryptionKey := some key, isSetup := true, isUnlocked := true,
                  hasCheckedSetup := true }, .ok ())
      else
        ({ s with store := store1 }, .error .saveSaltFailed)

/-- Errors thrown by unlockEncryption, one per distinct message: user
not authenticated, salt not found, invalid passphrase, and the
verification-unavailable failure (message: failed to verify
passphrase). -/
inductive UnlockErr where
  | notAuthenticated : UnlockErr
  | saltNotFound : UnlockErr
  | invalidPassphrase : UnlockErr
  | verificationUnavailable : UnlockErr
deriving DecidableEq, Repr

/-- Embeds the local-blob verification step of unlockEncryption: decrypt
the stored key material, JSON.parse it, and require a truthy embedded
userSub equal to the session userSub; every failure collapses to the
invalid-passphrase error. -/
def verifyLocalBlob (pair : EncPair) (u : String) (key : Key) :
    Except UnlockErr Unit :=
  match decryptKeyMaterial { pair := pair } key with
  | .error _ => .error .invalidPassphrase
  | .ok pt =>
    match parseVerif pt with
    | .error _ => .error .invalidPassphrase
    | .ok v =>
        if v.userSub = "" ∨ v.userSub ≠ u then .error .invalidPassphrase
        else .ok ()

/-- Embeds the cross-device verification step of unlockEncryption (no
usable local blob): fetch one encrypted record; decrypt it to prove the
key, or accept outright when no records exist; in both accepting cases
persist a fresh verification blob.  A failed fetch maps to the
verification-unavailable error. -/
def verifyRemote (store : Store) (u : String) (key : Key)
    (listResp : ListResp) (now iv : Nat) : Store × Except UnlockErr Unit :=
  match listResp with
  | .err => (store, .error .verificationUnavailable)
  | .ok items =>
    match items with
    | [] =>
        let ekm := encryptKeyMaterial
          (PlainStr.jsonVerif { timestamp := now, userSub := u }) key iv
        (storeEncryptedKey store u ekm now, .ok ())
    | record :: _ =>
        match decryptAnalysisData record key with
        | .ok _ =>
            let ekm := encryptKeyMaterial
              (PlainStr.jsonVerif { timestamp := now, userSub := u }) key iv
            (storeEncryptedKey store u ekm now, .ok ())
        | .error _ => (store, .error .invalidPassphrase)

/-- Embeds unlockEncryption: resolve the salt (memory, else remote
status), derive the key, verify it against the local blob when one with
truthy content exists and against remote data otherwise, and on success
place the key in memory and mark the session unlocked. -/
def unlockEncryption (s : SessionState) (passphrase : String)
    (statusResp : StatusResp) (listResp : ListResp) (now iv : Nat) :
    SessionState × Except UnlockErr Unit :=
  match s.userSub with
  | none => (s, .error .notAuthenticated)
  | some u =>
    if u = "" then (s, .error .notAuthenticated)
    else
      let saltFetch :=
        if strOptTruthy s.userSalt then (s, s.userSalt)
        else
          let r := getEncryptionStatus s statusResp
          (r.1, r.2.salt)
      let s1 := saltFetch.1
      match saltFetch.2 with
      | none => (s1, .error .saltNotFound)
      | some saltB64 =>
        if saltB64 = "" then (s1, .error .saltNotFound)
        else
          let key := deriveKey passphrase saltB64
          let accept := fun (st : SessionState) =>
            { st with encryptionKey := some key, userSalt := some saltB64,
                      isSetup := true, isUnlocked := true, hasCheckedSetup := true }
          match getEncryptedKey s1.store u with
          | some (.enc pair) =>
              match verifyLocalBlob pair u key with
              | .ok _ => (accept s1, .ok ())
              | .error e => (s1, .error e)
          | _ =>
              let vr := verifyRemote s1.store u key listResp now iv
              match vr.2 with
              | .ok _ => (accept { s1 with store := vr.1 }, .ok ())
              | .error e => ({ s1 with store := vr.1 }, .error e)

/-- Events driving the session manager: the auth collaborator signing
the user in or out, the checkSetup effect firing, and the exported
operations.  Remote responses, generated salts, timestamps and ivs are
event data.  Sign-out runs the two effects the code registers, in their
declaration order: the checkSetup effect (now unauthenticated) and then
the lock effect. -/
inductive Event where
  | signIn : String → Event
  | runCheckSetup : StatusResp → Event
  | setup : String → String → Nat → Nat → Bool → Event
  | unlock : String → StatusResp → ListResp → Nat → Nat → Event
  | lock : Event
  | signOut : StatusResp → Event

/-- One step of the session manager.  The identity provider yields a
nonempty subject, so a sign-in with the empty subject is modelled as
the collaborator doing nothing. -/
def stepEvent (s : SessionState) : Event → SessionState
  | .signIn u =>
      if u = "" then s else { s with isAuthenticated := true, userSub := some u }
  | .runCheckSetup resp => checkSetup s resp
  | .setup passphrase saltB64 now iv saveSaltOk =>
      (setupEncryption s passphrase saltB64 now iv saveSaltOk).1
  | .unlock passphrase statusResp listResp now iv =>
      (unlockEncryption s passphrase statusResp listResp now iv).1
  | .lock => lockEncryption s
  | .signOut resp =>
      lockEncryption
        (checkSetup { s with isAuthenticated := false, userSub := none } resp)

/-- States the session manager can reach from the pre-sign-in state. -/
inductive Reachable : SessionState → Prop where
  | init : Reachable initialState
  | next : ∀ s e, Reachable s → Reachable (stepEvent s e)

/-! Lockout tracker (useRateLimitStatus). -/

/-- Math.ceil of the exact quotient a / b, for a positive divisor b. -/
def ceilDiv (a b : Int) : Int := -((-a).fdiv b)

/-- JS truthiness of a number-or-null: null and 0 are falsy. -/
def intOptTruthy : Option Int → Bool
  | none => false
  | some t => t ≠ 0

/-- The JS expression value-or-null: a falsy number collapses to null. -/
def intOptOrNull : Option Int → Option Int
  | none => none
  | some t => if t = 0 then none else some t

/-- Status record exposed by the hook. -/
structure RateLimitStatus where
  isLocked : Bool
  remainingSeconds : Int
  attempts : Nat
  lockedUntil : Option Int
deriving DecidableEq, Repr

/-- Default status used initially and on backend failure. -/
def defaultStatus : RateLimitStatus :=
  { isLocked := false, remainingSeconds := 0, attempts := 0, lockedUntil := none }

/-- Parsed localStorage lockout entry for a user. -/
structure LockoutCache where
  lockedUntil : Option Int
  attempts : Nat
  timestamp : Int
deriving DecidableEq, Repr

/-- Parsed body of the backend unlock-attempts endpoint. -/
structure RemoteAttempts where
  attempts : Nat
  lockedUntil : Option Int
deriving DecidableEq, Repr

/-- Outcome of the unlock-attempts fetch: a parsed body, or a
network/HTTP failure (a thrown fetch and a non-ok response both leave
the default status and an untouched cache). -/
inductive AttemptsResp where
  | ok : RemoteAttempts → AttemptsResp
  | err : AttemptsResp
deriving DecidableEq, Repr

/-- Embeds the checkStatus callback of useRateLimitStatus.  Inputs: the
localStorage cache entry for the user (parsed; an unparseable entry is
outside the model), the backend response (consumed only when no cache
entry exists), the current time, the previous status and the time of
the previous check (for the one-second throttle).  Output: the status
the hook publishes and the new cache entry. -/
def checkStatus (cache : Option LockoutCache) (resp : AttemptsResp)
    (now : Int) (prev : RateLimitStatus) (lastCheck : Int) :
    RateLimitStatus × Option LockoutCache :=
  if now - lastCheck < 1000 then (prev, cache)
  else
    match cache with
    | some data =>
        let remaining : Int :=
          match data.lockedUntil with
          | some lu => if lu = 0 then 0 else max 0 (lu - now)
          | none => 0
        ({ isLocked := decide (remaining > 0)
         , remainingSeconds := ceilDiv remaining 1000
         , attempts := data.attempts
         , lockedUntil := intOptOrNull data.lockedUntil }, cache)
    | none =>
      match resp with
      | .err => (defaultStatus, none)
      | .ok r =>
          let isLocked : Bool :=
            match r.lockedUntil with
            | some lu => if lu = 0 then false else decide (now < lu)
            | none => false
          let remainingSeconds : Int :=
            match r.lockedUntil with
            | some lu => if lu = 0 then 0 else ceilDiv (lu - now) 1000
            | none => 0
          ({ isLocked := isLocked
           , remainingSeconds := remainingSeconds
           , attempts := r.attempts
           , lockedUntil := intOptOrNull r.lockedUntil },
           if isLocked ∨ r.attempts > 0 then
             some { lockedUntil := r.lockedUntil, attempts := r.attempts
                  , timestamp := now }
           else
             none)

/-! Auxiliary predicates and concrete states used by the theorems. -/

/-- Combined inductive invariant of the session manager: the key/locked
iff property, together with the facts that an unauthenticated session
holds no subject and no key, and that an authenticated session holds a
nonempty subject. -/
def SessionInv (s : SessionState) : Prop :=
  (s.encryptionKey ≠ none ↔ s.isUnlocked = true)
  ∧ (s.isAuthenticated = false → s.userSub = none ∧ s.encryptionKey = none)
  ∧ (s.isAuthenticated = true → ∃ u, s.userSub = some u ∧ u ≠ "")

/-- Example derived key for the concrete scenarios. -/
def exKey : Key := deriveKey "correct-horse-battery" "c2FsdA=="

/-- Example verification blob pair encrypted under exKey. -/
def exPair : EncPair :=
  encrypt (PlainStr.jsonVerif { timestamp := 11, userSub := "u1" }) exKey 7

/-- Concrete locked session for user u1 with a locally stored
verification blob and the salt cached in memory. -/
def exState : SessionState :=
  { isAuthenticated := true, userSub := some "u1", isSetup := true
  , isUnlocked := false, encryptionKey := none, userSalt := some "c2FsdA=="
  , hasCheckedSetup := true
  , store := [("u1",
      { encryptedKeyMaterial := .enc exPair, salt := none
      , createdAt := 11, updatedAt := none })] }

/-- Concrete store record for user u1 holding both a blob and a salt. -/
def exRecord : StoreRecord :=
  { encryptedKeyMaterial := .enc exPair, salt := some "c2FsdA=="
  , createdAt := 11, updatedAt := none }

/-- Concrete unlocked session for user u1 whose store record also holds
a salt. -/
def exUnlocked : SessionState :=
  { exState with isUnlocked := true, encryptionKey := some exKey,
                 store := [("u1", exRecord)] }

/-- Concrete fresh session just after sign-in of user u1: nothing set
up, nothing stored. -/
def c2State : SessionState :=
  { initialState with isAuthenticated := true, userSub := some "u1" }

/-- Concrete store in which user alice stored key material and then
cleared it. -/
def c10Store : Store :=
  clearEncryptedKey
    (storeEncryptedKey []
      "alice"
      (encryptKeyMaterial (PlainStr.jsonVerif { timestamp := 1, userSub := "alice" })
        exKey 2)
      1)
    "alice" 3

/-- Concrete locked session for user u1 on a fresh device: salt in
memory but no local store record. -/
def exStateNoBlob : SessionState := { exState with store := [] }

/-- Conclusion of the local-blob unlock claim: acceptance happens
exactly when the blob decrypts to a verification payload embedding the
session user, and every failure is the invalid-passphrase error leaving
the state untouched. -/
def LocalBlobVerifConcl (s : SessionState) (u salt passphrase : String)
    (pair : EncPair) (statusResp : StatusResp) (listResp : ListResp)
    (now iv : Nat) : Prop :=
  ((unlockEncryption s passphrase statusResp listResp now iv).2 = .ok () ↔
    (∃ v, decryptKeyMaterial { pair := pair } (deriveKey passphrase salt) =
        .ok (.jsonVerif v) ∧ v.userSub = u))
  ∧ (∀ e, (unlockEncryption s passphrase statusResp listResp now iv).2 = .error e →
      e = .invalidPassphrase ∧
      (unlockEncryption s passphrase statusResp listResp now iv).1 = s)

/-- Conclusion of the cross-device unlock claim, covering the three
cases: a decryptable record accepts and persists a fresh blob, a
non-decryptable record raises invalid passphrase, and zero records
accept optimistically and persist a fresh blob. -/
def RemoteVerifConcl (s : SessionState) (u salt passphrase : String)
    (statusResp : StatusResp) (items : List EncFieldsIn) (now iv : Nat) : Prop :=
  (∀ record rest d, items = record :: rest →
      decryptAnalysisData record (deriveKey passphrase salt) = .ok d →
      (unlockEncryption s passphrase statusResp (.ok items) now iv).2 = .ok ()
      ∧ (unlockEncryption s passphrase statusResp (.ok items) now iv).1.encryptionKey =
          some (deriveKey passphrase salt)
      ∧ (unlockEncryption s passphrase statusResp (.ok items) now iv).1.isUnlocked = true
      ∧ getEncryptedKey
          (unlockEncryption s passphrase statusResp (.ok items) now iv).1.store u =
          some (.enc (encrypt (PlainStr.jsonVerif { timestamp := now, userSub := u })
            (deriveKey passphrase salt) iv)))
  ∧ (∀ record rest e, items = record :: rest →
      decryptAnalysisData record (deriveKey passphrase salt) = .error e →
      (unlockEncryption s passphrase statusResp (.ok items) now iv).2 =
        .error .invalidPassphrase
      ∧ (unlockEncryption s passphrase statusResp (.ok items) now iv).1.encryptionKey =
          s.encryptionKey
      ∧ (unlockEncryption s passphrase statusResp (.ok items) now iv).1.isUnlocked =
          s.isUnlocked)
  ∧ (items = [] →
      (unlockEncryption s passphrase statusResp (.ok items) now iv).2 = .ok ()
      ∧ (unlockEncryption s passphrase statusResp (.ok items) now iv).1.encryptionKey =
          some (deriveKey passphrase salt)
      ∧ (unlockEncryption s passphrase statusResp (.ok items) now iv).1.isUnlocked = true
      ∧ getEncryptedKey
          (unlockEncryption s passphrase statusResp (.ok items) now iv).1.store u =
          some (.enc (encrypt (PlainStr.jsonVerif { timestamp := now, userSub := u })
            (deriveKey passphrase salt) iv)))

/-- Conclusion of the verification-unavailable claim: a failed remote
fetch surfaces the distinct transient error, and the invalid-passphrase
error can only arise from an actual decryption attempt on a fetched
record. -/
def VerifUnavailableConcl (s : SessionState) (salt passphrase : String)
    (statusResp : StatusResp) (now iv : Nat) : Prop :=
  (unlockEncryption s passphrase statusResp .err now iv).2 =
      .error .verificationUnavailable
  ∧ UnlockErr.verificationUnavailable ≠ UnlockErr.invalidPassphrase
  ∧ (∀ items, (unlockEncryption s passphrase statusResp (.ok items) now iv).2 =
        .error .invalidPassphrase →
      ∃ record rest e, items = record :: rest ∧
        decryptAnalysisData record (deriveKey passphrase salt) = .error e)

/-- Conclusion of the amended lock/clear claim: lockEncryption only
discards the key, locks the session and resets the check flag, leaving
the store and cached salt untouched; clearEncryptedKey, when a record
exists, blanks the blob and preserves a present salt. -/
def LockAndClearConcl (s : SessionState) (store : Store) (u : String)
    (now : Nat) (saltStr : String) : Prop :=
  (lockEncryption s).encryptionKey = none
  ∧ (lockEncryption s).isUnlocked = false
  ∧ (lockEncryption s).hasCheckedSetup = false
  ∧ (lockEncryption s).store = s.store
  ∧ (lockEncryption s).userSalt = s.userSalt
  ∧ ((clearEncryptedKey store u now).find u).map (·.encryptedKeyMaterial) =
      some BlobField.empty
  ∧ ((clearEncryptedKey store u now).find u).map (·.salt) = some (some saltStr)

/-- Conclusion of the amended store-distinguishability claim: after a
clear the record is still present with an empty blob, and the
JS-truthiness test used by the unlock path treats a cleared blob and a
never-stored one identically. -/
def ClearedBlobConcl (store : Store) (u : String) (now : Nat) : Prop :=
  hasEncryptedKey (clearEncryptedKey store u now) u = true
  ∧ getEncryptedKey (clearEncryptedKey store u now) u = some BlobField.empty
  ∧ blobOptTruthy (getEncryptedKey (clearEncryptedKey store u now) u) = false
  ∧ blobOptTruthy none = false

/-- Conclusion of the amended inconsistency claim: with no local key
material, a status response reporting records but no salt produces the
same state as one reporting a fresh user, with the not-set-up flags. -/
def InconsistencyConcl (s : SessionState) (salt : Option String) : Prop :=
  checkSetup s (.ok { hasSalt := false, hasAnalyses := true, salt := salt }) =
    checkSetup s (.ok { hasSalt := false, hasAnalyses := false, salt := salt })
  ∧ (checkSetup s (.ok { hasSalt := false, hasAnalyses := true, salt := salt })).isSetup
      = false
  ∧ (checkSetup s (.ok { hasSalt := false, hasAnalyses := true, salt := salt })).isUnlocked
      = false

/-- Conclusion of the amended lockout claim: a present cache entry is
used regardless of expiry and of the remote response; while the lockout
is in the future the published status is locked with the ceiling of the
remaining milliseconds over 1000; once expired the status is unlocked
with zero remaining seconds but the cached attempts count is kept. -/
def LockoutConcl (c : LockoutCache) (resp resp2 : AttemptsResp) (now : Int)
    (prev : RateLimitStatus) (lastCheck : Int) (T : Int) : Prop :=
  checkStatus (some c) resp now prev lastCheck =
      checkStatus (some c) resp2 now prev lastCheck
  ∧ (c.lockedUntil = some T → T ≠ 0 → now < T →
      (checkStatus (some c) resp now prev lastCheck).1 =
        { isLocked := true, remainingSeconds := ceilDiv (T - now) 1000
        , attempts := c.attempts, lockedUntil := some T })
  ∧ (c.lockedUntil = some T → T ≤ now →
      (checkStatus (some c) resp now prev lastCheck).1.isLocked = false
      ∧ (checkStatus (some c) resp now prev lastCheck).1.attempts = c.attempts)
  ∧ (∀ r : RemoteAttempts, r.lockedUntil = some T → T ≠ 0 → now < T →
      (checkStatus none (.ok r) now prev lastCheck).1 =
        { isLocked := true, remainingSeconds := ceilDiv (T - now) 1000
        , attempts := r.attempts, lockedUntil := some T })

/-! Shared lemmas about the store. -/

theorem find?_map_replace (l : List (String × StoreRecord)) (u : String)
    (r : StoreRecord) (h : (l.find? (fun p => p.1 = u)).isSome) :
    (l.map (fun p => if p.1 = u then (u, r) else p)).find? (fun p => p.1 = u) =
      some (u, r) := by
  induction l with
  | nil => simp at h
  | cons hd tl ih =>
    by_cases hc : hd.1 = u
    · rw [List.map_cons, if_pos hc, List.find?_cons_of_pos _ (by simp)]
    · rw [List.find?_cons_of_neg _ (by simp [hc])] at h
      rw [List.map_cons, if_neg hc, List.find?_cons_of_neg _ (by simp [hc])]
      exact ih h

theorem Store.find_put (s : Store) (u : String) (r : StoreRecord) :
    (Store.put s u r).find u = some r := by
  unfold Store.put Store.find
  by_cases h : (s.find? (fun p => p.1 = u)).isSome
  · rw [if_pos h, find?_map_replace s u r h]; rfl
  · rw [if_neg h, List.find?_cons_of_pos _ (by simp)]; rfl

theorem getEncryptedKey_store (st : Store) (u : String) (ekm : SerializedEnc)
    (now : Nat) :
    getEncryptedKey (storeEncryptedKey st u ekm now) u = some (.enc ekm.pair) := by
  unfold getEncryptedKey storeEncryptedKey
  rw [Store.find_put]
  rfl

theorem verifyLocalBlob_ok_iff (pair : EncPair) (u : String) (key : Key)
    (hu : u ≠ "") :
    verifyLocalBlob pair u key = .ok () ↔
      ∃ v, decryptKeyMaterial { pair := pair } key = .ok (.jsonVerif v) ∧
        v.userSub = u := by
  unfold verifyLocalBlob
  cases hdec : decryptKeyMaterial { pair := pair } key with
  | error e => simp
  | ok pt =>
    cases pt with
    | lit s => simp [parseVerif]
    | jsonCtx j => simp [parseVerif]
    | jsonMl m => simp [parseVerif]
    | jsonVerif v =>
      by_cases hv : v.userSub = u
      · simp [parseVerif, hv, hu]
      · simp [parseVerif, hv]

theorem verifyLocalBlob_err (pair : EncPair) (u : String) (key : Key)
    (e : UnlockErr) (h : verifyLocalBlob pair u key = .error e) :
    e = .invalidPassphrase := by
  unfold verifyLocalBlob at h
  cases hdec : decryptKeyMaterial { pair := pair } key with
  | error e2 =>
      rw [hdec] at h
      simp only [Except.error.injEq] at h
      exact h.symm
  | ok pt =>
      rw [hdec] at h
      cases pt with
      | lit s =>
          simp only [parseVerif, Except.error.injEq] at h
          exact h.symm
      | jsonCtx j =>
          simp only [parseVerif, Except.error.injEq] at h
          exact h.symm
      | jsonMl m =>
          simp only [parseVerif, Except.error.injEq] at h
          exact h.symm
      | jsonVerif v =>
          simp only [parseVerif] at h
          by_cases hc : v.userSub = "" ∨ v.userSub ≠ u
          · rw [if_pos hc] at h
            simp only [Except.error.injEq] at h
            exact h.symm
          · rw [if_neg hc] at h
            exact absurd h (by simp)

theorem unlock_reduce (s : SessionState) (u salt passphrase : String)
    (sr : StatusResp) (lr : ListResp) (now iv : Nat)
    (hsub : s.userSub = some u) (hune : u ≠ "")
    (hsalt : s.userSalt = some salt) (hsne : salt ≠ "") :
    unlockEncryption s passphrase sr lr now iv =
      (match getEncryptedKey s.store u with
       | some (.enc pair) =>
           match verifyLocalBlob pair u (deriveKey passphrase salt) with
           | .ok _ =>
               ({ s with encryptionKey := some (deriveKey passphrase salt),
                         userSalt := some salt, isSetup := true,
                         isUnlocked := true, hasCheckedSetup := true }, .ok ())
           | .error e => (s, .error e)
       | _ =>
           let vr := verifyRemote s.store u (deriveKey passphrase salt) lr now iv
           match vr.2 with
           | .ok _ =>
               ({ s with store := vr.1,
                         encryptionKey := some (deriveKey passphrase salt),
                         userSalt := some salt, isSetup := true,
                         isUnlocked := true, hasCheckedSetup := true }, .ok ())
           | .error e => ({ s with store := vr.1 }, .error e)) := by
  unfold unlockEncryption
  have ht : strOptTruthy (some salt) = true := by simp [strOptTruthy, hsne]
  simp only [hsub, hsalt, ht, if_true, eq_self_iff_true, if_neg hune, if_neg hsne]

/-! Claim theorems. -/

/-- C4: decrypting the encryption of a valid record under the same key
returns the original record, including when analysisContext is
absent. -/
theorem encryptAnalysisData_roundtrip (d : AnalysisData) (k : Key)
    (iv1 iv2 iv3 iv4 : Nat) :
    decryptAnalysisData (EncryptedFields.toIn (encryptAnalysisData d k iv1 iv2 iv3 iv4)) k =
      Except.ok { userEmail := d.userEmail, inputContent := d.inputContent
                , analysisContext := d.analysisContext, mlResult := d.mlResult } := by
  cases hac : d.analysisContext <;>
    simp [decryptAnalysisData, encryptAnalysisData, EncryptedFields.toIn, decrypt,
      encrypt, parseCtx, parseMl, ciphertextTruthy, PlainStr.truthy, hac,
      Except.bind, bind, pure, Except.pure]

/-- C1 counterexample: from a concrete unlocked session whose store
holds a non-blank verification blob and a salt, lockEncryption returns
with the blob still intact — the stored record is not blanked. -/
theorem lock_does_not_blank_blob :
    exUnlocked.isUnlocked = true
    ∧ ((lockEncryption exUnlocked).store.find "u1").map (·.encryptedKeyMaterial) =
        some (BlobField.enc exPair)
    ∧ BlobField.enc exPair ≠ BlobField.empty := by
  refine ⟨rfl, rfl, by decide⟩

/-- C1 amended: lockEncryption discards the in-memory key, locks the
session and resets the check flag while leaving the local store and the
cached salt untouched; the separate clearEncryptedKey store operation —
which no lock or sign-out path invokes — blanks the blob field and
preserves a present salt. -/
theorem lock_discards_key_clear_blanks_blob (s : SessionState) (store : Store)
    (u : String) (now : Nat) (r : StoreRecord) (saltStr : String)
    (h1 : store.find u = some r) (h2 : r.salt = some saltStr) :
    LockAndClearConcl s store u now saltStr := by
  refine ⟨rfl, rfl, rfl, rfl, rfl, ?_, ?_⟩ <;>
    · unfold clearEncryptedKey
      rw [h1, Store.find_put]
      simp [h2]

/-- C1 amended witness at the concrete unlocked session. -/
theorem lock_discards_key_clear_blanks_blob_witness :
    LockAndClearConcl exState exUnlocked.store "u1" 99 "c2FsdA==" :=
  lock_discards_key_clear_blanks_blob exState exUnlocked.store "u1" 99 exRecord
    "c2FsdA==" (by decide) rfl

/-- C10 counterexample: getEncryptedKey alone does distinguish a cleared
blob from a never-stored one — it returns the empty string for the
former and null for the latter, and those values differ. -/
theorem cleared_blob_distinguishable_by_get :
    getEncryptedKey c10Store "alice" = some BlobField.empty
    ∧ getEncryptedKey c10Store "bob" = none
    ∧ some BlobField.empty ≠ (none : Option BlobField) := by
  refine ⟨by decide, by decide, by decide⟩

/-- C10 amended: after clearEncryptedKey on an existing record, the
record survives with an empty blob, so hasEncryptedKey still answers
true while the blob is unusable, and the JS truthiness test the unlock
path applies to getEncryptedKey treats the cleared blob exactly like a
never-stored one. -/
theorem cleared_blob_looks_absent_to_truthiness (store : Store) (u : String)
    (now : Nat) (r : StoreRecord) (h : store.find u = some r) :
    ClearedBlobConcl store u now := by
  have hget : getEncryptedKey (clearEncryptedKey store u now) u =
      some BlobField.empty := by
    unfold getEncryptedKey clearEncryptedKey
    rw [h, Store.find_put]
    rfl
  refine ⟨?_, hget, ?_, rfl⟩
  · unfold hasEncryptedKey
    rw [hget]
    rfl
  · rw [hget]
    rfl

/-- C10 amended witness at the concrete store of user u1. -/
theorem cleared_blob_looks_absent_to_truthiness_witness :
    ClearedBlobConcl exUnlocked.store "u1" 99 :=
  cleared_blob_looks_absent_to_truthiness exUnlocked.store "u1" 99 exRecord
    (by decide)

/-- C2 counterexample: from a concrete fresh signed-in session, the
status response reporting analyses but no salt produces exactly the
same state as the response reporting a fresh user — the session
defaults to the not-set-up flags and no distinct error state exists. -/
theorem inconsistency_collapses_to_not_setup :
    checkSetup c2State (.ok { hasSalt := false, hasAnalyses := true, salt := none }) =
      checkSetup c2State (.ok { hasSalt := false, hasAnalyses := false, salt := none })
    ∧ (checkSetup c2State
        (.ok { hasSalt := false, hasAnalyses := true, salt := none })).isSetup = false
    ∧ (checkSetup c2State
        (.ok { hasSalt := false, hasAnalyses := true, salt := none })).isUnlocked = false := by
  refine ⟨by decide, by decide, by decide⟩

/-- C2 amended: with no local key material, a status response reporting
existing analyses but no salt is handled like a fresh user — the
inconsistency is only logged, the session gets isSetup and isUnlocked
false, and no distinct error state is entered. -/
theorem inconsistency_same_state_as_fresh_user (s : SessionState) (u : String)
    (salt : Option String)
    (hauth : s.isAuthenticated = true) (hsub : s.userSub = some u) (hune : u ≠ "")
    (hnk : ¬(s.isUnlocked = true ∧ s.encryptionKey ≠ none))
    (hnc : ¬(s.hasCheckedSetup = true ∧ s.isSetup = true))
    (hnl : hasEncryptedKey s.store u = false) :
    InconsistencyConcl s salt := by
  unfold InconsistencyConcl checkSetup checkSetupBody getEncryptionStatus
  rw [hsub]
  simp [hauth, hnk, hnc, hnl, strOptTruthy, hune]

/-- C2 amended witness at the concrete fresh session. -/
theorem inconsistency_same_state_as_fresh_user_witness :
    InconsistencyConcl c2State none :=
  inconsistency_same_state_as_fresh_user c2State "u1" none rfl rfl (by decide)
    (by decide) (by decide) (by decide)

/-- C3 counterexample: with the cache entry left by a lockout
(attempts five, lockedUntil 10000) and the lockout expired (now equals
10000), a refresh reports unlocked but with the cached five attempts,
not zero — even though the remote authority already reports zero; the
expired cache is still consulted and the remote counter is ignored. -/
theorem expired_cache_keeps_attempts :
    (checkStatus (some { lockedUntil := some 10000, attempts := 5, timestamp := 0 })
        (.ok { attempts := 0, lockedUntil := none }) 10000 defaultStatus 0).1 =
      { isLocked := false, remainingSeconds := 0, attempts := 5
      , lockedUntil := some 10000 }
    ∧ (5 : Nat) ≠ 0 := by
  refine ⟨by decide, by decide⟩

/-- C3 amended: a present cache entry is consulted unconditionally — no
expiry check — and the remote response is then ignored; while the
lockout lies in the future the status is locked with the ceiling of the
remaining milliseconds over 1000; once expired the status turns
unlocked with zero remaining seconds but keeps the cached attempts
count; the remote path reports the authoritative counter when no cache
entry exists. -/
theorem lockout_cache_behavior (c : LockoutCache) (resp resp2 : AttemptsResp)
    (now : Int) (prev : RateLimitStatus) (lastCheck : Int) (T : Int)
    (hth : 1000 ≤ now - lastCheck) :
    LockoutConcl c resp resp2 now prev lastCheck T := by
  have hth' : ¬(now - lastCheck < 1000) := by omega
  unfold LockoutConcl checkStatus
  refine ⟨by simp [hth'], ?_, ?_, ?_⟩
  · intro hlu hT0 hnow
    have hmax : max 0 (T - now) = T - now := by omega
    simp [hth', hlu, hT0, hmax, intOptOrNull, decide_eq_true_eq]
    omega
  · intro hlu hnow
    by_cases hT0 : T = 0
    · simp [hth', hlu, hT0]
    · have hmax : max 0 (T - now) = 0 := by omega
      simp [hth', hlu, hT0, hmax]
  · intro r hlu hT0 hnow
    simp [hth', hlu, hT0, intOptOrNull, decide_eq_true_eq]
    omega

/-- C3 amended witness at the concrete expired-lockout cache. -/
theorem lockout_cache_behavior_witness :
    LockoutConcl { lockedUntil := some 10000, attempts := 5, timestamp := 0 }
      (.ok { attempts := 0, lockedUntil := none })
      (.ok { attempts := 5, lockedUntil := some 10000 }) 10000 defaultStatus 0
      10000 :=
  lockout_cache_behavior _ _ _ 10000 defaultStatus 0 10000 (by decide)

/-- C9: in the remote path, a lockedUntil already in the past yields a
negative remainingSeconds — here the remote authority reports
lockedUntil 1500 milliseconds before now, and the published status
carries remainingSeconds minus one, violating the nonnegativity the
data model requires (the localStorage path clamps with max zero, the
remote path does not). -/
theorem remote_path_negative_remaining :
    (checkStatus none (.ok { attempts := 2, lockedUntil := some 8500 }) 10000
        defaultStatus 0).1 =
      { isLocked := false, remainingSeconds := -1, attempts := 2
      , lockedUntil := some 8500 }
    ∧ (-1 : Int) < 0 := by
  refine ⟨by decide, by decide⟩

/-- C5: with a locally stored verification blob, unlock accepts exactly
when the blob decrypts under the candidate key to a payload embedding
the session user; any decryption failure or identity mismatch yields
the invalid-passphrase error and leaves the state unchanged — locked,
with no key in memory. -/
theorem unlock_local_blob_iff (s : SessionState) (u salt passphrase : String)
    (pair : EncPair) (statusResp : StatusResp) (listResp : ListResp) (now iv : Nat)
    (hsub : s.userSub = some u) (hune : u ≠ "")
    (hsalt : s.userSalt = some salt) (hsne : salt ≠ "")
    (hblob : getEncryptedKey s.store u = some (.enc pair)) :
    LocalBlobVerifConcl s u salt passphrase pair statusResp listResp now iv := by
  have hred := unlock_reduce s u salt passphrase statusResp listResp now iv
    hsub hune hsalt hsne
  rw [hblob] at hred
  have hred2 : unlockEncryption s passphrase statusResp listResp now iv =
      (match verifyLocalBlob pair u (deriveKey passphrase salt) with
       | .ok _ =>
           ({ s with encryptionKey := some (deriveKey passphrase salt),
                     userSalt := some salt, isSetup := true,
                     isUnlocked := true, hasCheckedSetup := true }, .ok ())
       | .error e => (s, .error e)) := hred
  unfold LocalBlobVerifConcl
  cases hv : verifyLocalBlob pair u (deriveKey passphrase salt) with
  | ok a =>
      cases a
      rw [hv] at hred2
      refine ⟨?_, ?_⟩
      · rw [hred2]
        exact iff_of_true rfl ((verifyLocalBlob_ok_iff pair u _ hune).mp hv)
      · intro e he
        rw [hred2] at he
        simp at he
  | error e0 =>
      rw [hv] at hred2
      have he0 : e0 = .invalidPassphrase := verifyLocalBlob_err pair u _ e0 hv
      refine ⟨?_, ?_⟩
      · rw [hred2]
        refine iff_of_false (by simp) ?_
        rintro ⟨v, hok, hvu⟩
        have hok2 : verifyLocalBlob pair u (deriveKey passphrase salt) = .ok () :=
          (verifyLocalBlob_ok_iff pair u _ hune).mpr ⟨v, hok, hvu⟩
        rw [hv] at hok2
        simp at hok2
      · intro e he
        rw [hred2] at he
        simp only [Except.error.injEq] at he
        refine ⟨by rw [← he, he0], by rw [hred2]⟩

/-- C5 witness: wrong passphrase against the concrete stored blob. -/
theorem unlock_local_blob_iff_witness :
    LocalBlobVerifConcl exState "u1" "c2FsdA==" "wrong" exPair .err (.ok []) 0 0 :=
  unlock_local_blob_iff exState "u1" "c2FsdA==" "wrong" exPair .err (.ok []) 0 0
    rfl (by decide) rfl (by decide) (by decide)

theorem unlock_noblob_cases (s : SessionState) (u salt passphrase : String)
    (statusResp : StatusResp) (items : List EncFieldsIn) (now iv : Nat)
    (hsub : s.userSub = some u) (hune : u ≠ "")
    (hsalt : s.userSalt = some salt) (hsne : salt ≠ "")
    (hblob : blobOptTruthy (getEncryptedKey s.store u) = false) :
    RemoteVerifConcl s u salt passphrase statusResp items now iv := by
  have hred := unlock_reduce s u salt passphrase statusResp (.ok items) now iv
    hsub hune hsalt hsne
  have hred2 : unlockEncryption s passphrase statusResp (.ok items) now iv =
      (match (verifyRemote s.store u (deriveKey passphrase salt) (.ok items) now iv).2 with
       | .ok _ =>
           ({ s with
                store := (verifyRemote s.store u (deriveKey passphrase salt)
                  (.ok items) now iv).1,
                encryptionKey := some (deriveKey passphrase salt),
                userSalt := some salt, isSetup := true,
                isUnlocked := true, hasCheckedSetup := true }, .ok ())
       | .error e =>
           ({ s with
                store := (verifyRemote s.store u (deriveKey passphrase salt)
                  (.ok items) now iv).1 }, .error e)) := by
    cases hgk : getEncryptedKey s.store u with
    | none => rw [hgk] at hred; exact hred
    | some b =>
        cases b with
        | empty => rw [hgk] at hred; exact hred
        | enc p =>
            rw [hgk] at hblob
            simp [blobOptTruthy, BlobField.truthy] at hblob
  unfold RemoteVerifConcl
  refine ⟨?_, ?_, ?_⟩
  · intro record rest d hitems hdec
    subst hitems
    have hvr : verifyRemote s.store u (deriveKey passphrase salt)
        (.ok (record :: rest)) now iv =
        (storeEncryptedKey s.store u
          (encryptKeyMaterial (PlainStr.jsonVerif { timestamp := now, userSub := u })
            (deriveKey passphrase salt) iv) now, .ok ()) := by
      simp [verifyRemote, hdec]
    rw [hvr] at hred2
    refine ⟨by rw [hred2], by rw [hred2], by rw [hred2], ?_⟩
    rw [hred2]
    exact getEncryptedKey_store _ _ _ _
  · intro record rest e hitems hdec
    subst hitems
    have hvr : verifyRemote s.store u (deriveKey passphrase salt)
        (.ok (record :: rest)) now iv = (s.store, .error .invalidPassphrase) := by
      simp [verifyRemote, hdec]
    rw [hvr] at hred2
    exact ⟨by rw [hred2], by rw [hred2], by rw [hred2]⟩
  · intro hitems
    subst hitems
    have hvr : verifyRemote s.store u (deriveKey passphrase salt)
        (.ok []) now iv =
        (storeEncryptedKey s.store u
          (encryptKeyMaterial (PlainStr.jsonVerif { timestamp := now, userSub := u })
            (deriveKey passphrase salt) iv) now, .ok ()) := by
      simp [verifyRemote]
    rw [hvr] at hred2
    refine ⟨by rw [hred2], by rw [hred2], by rw [hred2], ?_⟩
    rw [hred2]
    exact getEncryptedKey_store _ _ _ _

/-- C6: with no usable local blob, unlock verifies against a fetched
remote record when one exists (accepting and persisting a fresh blob on
success, raising invalid passphrase on failure) and accepts
optimistically, persisting a fresh blob, when zero records exist. -/
theorem unlock_remote_fallback (s : SessionState) (u salt passphrase : String)
    (statusResp : StatusResp) (items : List EncFieldsIn) (now iv : Nat)
    (hsub : s.userSub = some u) (hune : u ≠ "")
    (hsalt : s.userSalt = some salt) (hsne : salt ≠ "")
    (hblob : blobOptTruthy (getEncryptedKey s.store u) = false) :
    RemoteVerifConcl s u salt passphrase statusResp items now iv :=
  unlock_noblob_cases s u salt passphrase statusResp items now iv
    hsub hune hsalt hsne hblob

/-- C6 witness: fresh device, zero remote records. -/
theorem unlock_remote_fallback_witness :
    RemoteVerifConcl exStateNoBlob "u1" "c2FsdA==" "correct-horse-battery" .err [] 5 6 :=
  unlock_remote_fallback exStateNoBlob "u1" "c2FsdA==" "correct-horse-battery" .err
    [] 5 6 rfl (by decide) rfl (by decide) (by decide)

/-- C7: with no usable local blob, a failed remote fetch yields the
verification-unavailable error, which is distinct from invalid
passphrase; and whenever unlock does report invalid passphrase in this
path, a record was fetched and its decryption was attempted and
failed. -/
theorem unlock_fetch_failure_distinct (s : SessionState) (u salt passphrase : String)
    (statusResp : StatusResp) (now iv : Nat)
    (hsub : s.userSub = some u) (hune : u ≠ "")
    (hsalt : s.userSalt = some salt) (hsne : salt ≠ "")
    (hblob : blobOptTruthy (getEncryptedKey s.store u) = false) :
    VerifUnavailableConcl s salt passphrase statusResp now iv := by
  have herr := unlock_reduce s u salt passphrase statusResp .err now iv
    hsub hune hsalt hsne
  have herr2 : (unlockEncryption s passphrase statusResp .err now iv).2 =
      .error .verificationUnavailable := by
    cases hgk : getEncryptedKey s.store u with
    | none => rw [hgk] at herr; rw [herr]; exact rfl
    | some b =>
        cases b with
        | empty => rw [hgk] at herr; rw [herr]; exact rfl
        | enc p =>
            rw [hgk] at hblob
            simp [blobOptTruthy, BlobField.truthy] at hblob
  refine ⟨herr2, by simp, ?_⟩
  intro items hinv
  have hitems := unlock_noblob_cases s u salt passphrase statusResp items now iv
    hsub hune hsalt hsne hblob
  obtain ⟨h1, h2, h3⟩ := hitems
  cases items with
  | nil =>
      have := (h3 rfl).1
      rw [this] at hinv
      simp at hinv
  | cons record rest =>
      cases hdec : decryptAnalysisData record (deriveKey passphrase salt) with
      | ok d =>
          have := (h1 record rest d rfl hdec).1
          rw [this] at hinv
          simp at hinv
      | error e =>
          exact ⟨record, rest, e, rfl, hdec⟩

/-- C7 witness: fresh device, remote fetch failure. -/
theorem unlock_fetch_failure_distinct_witness :
    VerifUnavailableConcl exStateNoBlob "c2FsdA==" "correct-horse-battery" .err 5 6 :=
  unlock_fetch_failure_distinct exStateNoBlob "u1" "c2FsdA==" "correct-horse-battery"
    .err 5 6 rfl (by decide) rfl (by decide) (by decide)

theorem getEncryptionStatus_proj (s : SessionState) (resp : StatusResp) :
    (getEncryptionStatus s resp).1.isAuthenticated = s.isAuthenticated
    ∧ (getEncryptionStatus s resp).1.userSub = s.userSub
    ∧ (getEncryptionStatus s resp).1.encryptionKey = s.encryptionKey
    ∧ (getEncryptionStatus s resp).1.isUnlocked = s.isUnlocked
    ∧ (getEncryptionStatus s resp).1.isSetup = s.isSetup
    ∧ (getEncryptionStatus s resp).1.hasCheckedSetup = s.hasCheckedSetup
    ∧ (getEncryptionStatus s resp).1.store = s.store := by
  unfold getEncryptionStatus
  cases hsub : s.userSub with
  | none => simp [hsub]
  | some u =>
      cases resp with
      | err => simp [hsub]
      | ok d =>
          by_cases hss : strOptTruthy d.salt = true
          · simp [hsub, hss]
          · simp [hsub, hss]

theorem checkSetupBody_inv (s : SessionState) (u : String) (resp : StatusResp)
    (h1 : s.encryptionKey ≠ none ↔ s.isUnlocked = true) :
    ((checkSetupBody s u resp).encryptionKey ≠ none ↔
      (checkSetupBody s u resp).isUnlocked = true)
    ∧ (checkSetupBody s u resp).isAuthenticated = s.isAuthenticated
    ∧ (checkSetupBody s u resp).userSub = s.userSub
    ∧ (checkSetupBody s u resp).encryptionKey = s.encryptionKey := by
  obtain ⟨ga, gu, gk, gl, gs2, gc, gst⟩ := getEncryptionStatus_proj s resp
  unfold checkSetupBody
  by_cases hg : (s.isUnlocked = true ∧ s.encryptionKey ≠ none)
  · rw [if_pos hg]
    exact ⟨h1, rfl, rfl, rfl⟩
  · rw [if_neg hg]
    have hkey : s.encryptionKey = none := by
      by_contra hk
      exact hg ⟨h1.mp hk, hk⟩
    by_cases hc2 : (s.hasCheckedSetup = true ∧ s.isSetup = true)
    · rw [if_pos hc2]
      exact ⟨h1, rfl, rfl, rfl⟩
    · rw [if_neg hc2]
      by_cases hl : hasEncryptedKey s.store u = true
      · rw [if_pos hl]
        refine ⟨?_, rfl, rfl, rfl⟩
        simp [hkey]
      · rw [if_neg hl]
        dsimp only
        by_cases hsalt : (getEncryptionStatus s resp).2.hasSalt = true
        · rw [if_pos hsalt]
          by_cases hss : strOptTruthy (getEncryptionStatus s resp).2.salt = true
          · rw [if_pos hss]
            refine ⟨?_, by rw [ga], by rw [gu], by rw [gk]⟩
            simp [gk, hkey]
          · rw [if_neg hss]
            refine ⟨?_, by rw [ga], by rw [gu], by rw [gk]⟩
            simp [gk, hkey]
        · rw [if_neg hsalt]
          by_cases han : (getEncryptionStatus s resp).2.hasAnalyses = true
          · rw [if_pos han]
            refine ⟨?_, by rw [ga], by rw [gu], by rw [gk]⟩
            simp [gk, hkey]
          · rw [if_neg han]
            refine ⟨?_, by rw [ga], by rw [gu], by rw [gk]⟩
            simp [gk, hkey]

theorem checkSetup_inv (s : SessionState) (resp : StatusResp)
    (h : SessionInv s) : SessionInv (checkSetup s resp) := by
  obtain ⟨h1, h2, h3⟩ := h
  unfold checkSetup
  by_cases hcond : (s.isAuthenticated = false ∨ strOptTruthy s.userSub = false)
  · rw [if_pos hcond]
    have hkey : s.encryptionKey = none := by
      rcases hcond with hA | hS
      · exact (h2 hA).2
      · cases hauth : s.isAuthenticated with
        | false => exact (h2 hauth).2
        | true =>
            obtain ⟨u, hu, hune⟩ := h3 hauth
            rw [hu] at hS
            simp [strOptTruthy, hune] at hS
    exact ⟨by simp [hkey], fun hA => ⟨(h2 hA).1, hkey⟩, fun hA => h3 hA⟩
  · rw [if_neg hcond]
    have hauth : s.isAuthenticated = true := by
      cases hb : s.isAuthenticated with
      | false => exact absurd (Or.inl hb) hcond
      | true => rfl
    obtain ⟨u, hu, hune⟩ := h3 hauth
    rw [hu]
    obtain ⟨b1, b2, b3, b4⟩ := checkSetupBody_inv s u resp h1
    refine ⟨b1, ?_, ?_⟩
    · intro hA
      rw [b2, hauth] at hA
      exact absurd hA (by simp)
    · intro _
      rw [b3]
      exact ⟨u, hu, hune⟩

theorem lockEncryption_inv (s : SessionState) (h : SessionInv s) :
    SessionInv (lockEncryption s) := by
  obtain ⟨h1, h2, h3⟩ := h
  exact ⟨by simp [lockEncryption], fun hA => ⟨(h2 hA).1, rfl⟩, fun hA => h3 hA⟩

theorem setupEncryption_inv (s : SessionState) (passphrase saltB64 : String)
    (now iv : Nat) (saveSaltOk : Bool) (h : SessionInv s) :
    SessionInv ((setupEncryption s passphrase saltB64 now iv saveSaltOk).1) := by
  obtain ⟨h1, h2, h3⟩ := h
  unfold setupEncryption
  cases hsub : s.userSub with
  | none => exact ⟨h1, fun hA => ⟨(h2 hA).1, (h2 hA).2⟩, fun hA => h3 hA⟩
  | some u =>
      dsimp only
      by_cases hu : u = ""
      · rw [if_pos hu]
        exact ⟨h1, fun hA => ⟨(h2 hA).1, (h2 hA).2⟩, fun hA => h3 hA⟩
      · rw [if_neg hu]
        cases saveSaltOk with
        | true =>
            rw [if_pos rfl]
            refine ⟨by simp, ?_, ?_⟩
            · intro hA
              exact absurd ((h2 hA).1.symm.trans hsub) (by simp)
            · intro _
              exact ⟨u, rfl, hu⟩
        | false =>
            rw [if_neg (by simp)]
            refine ⟨h1, ?_, ?_⟩
            · intro hA
              exact absurd ((h2 hA).1.symm.trans hsub) (by simp)
            · intro _
              exact ⟨u, rfl, hu⟩

theorem unlockEncryption_userSub_none (s : SessionState) (p : String)
    (sr : StatusResp) (lr : ListResp) (n i : Nat) (hnone : s.userSub = none) :
    unlockEncryption s p sr lr n i = (s, .error .notAuthenticated) := by
  unfold unlockEncryption
  rw [hnone]

theorem unlock_proj (s : SessionState) (p : String) (sr : StatusResp)
    (lr : ListResp) (n i : Nat) :
    (unlockEncryption s p sr lr n i).1.isAuthenticated = s.isAuthenticated
    ∧ (unlockEncryption s p sr lr n i).1.userSub = s.userSub
    ∧ (((unlockEncryption s p sr lr n i).1.encryptionKey = s.encryptionKey
        ∧ (unlockEncryption s p sr lr n i).1.isUnlocked = s.isUnlocked)
       ∨ ((unlockEncryption s p sr lr n i).1.encryptionKey ≠ none
        ∧ (unlockEncryption s p sr lr n i).1.isUnlocked = true)) := by
  obtain ⟨ga, gu, gk, gl, gs2, gc, gst⟩ := getEncryptionStatus_proj s sr
  unfold unlockEncryption
  cases hsub : s.userSub with
  | none => simp [hsub]
  | some u =>
      dsimp only
      by_cases hu : u = ""
      · rw [if_pos hu]
        simp [hsub]
      · rw [if_neg hu]
        by_cases hs : strOptTruthy s.userSalt = true
        · rw [if_pos hs]
          dsimp only
          split
          · simp [hsub]
          · split
            · simp [hsub]
            · split
              · split <;> simp [hsub]
              · split <;> simp [hsub]
        · rw [if_neg hs]
          dsimp only
          split
          · simp [hsub, ga, gu, gk, gl]
          · split
            · simp [hsub, ga, gu, gk, gl]
            · split
              · split <;> simp [hsub, ga, gu, gk, gl]
              · split <;> simp [hsub, ga, gu, gk, gl]

theorem unlockEncryption_inv (s : SessionState) (p : String) (sr : StatusResp)
    (lr : ListResp) (n i : Nat) (h : SessionInv s) :
    SessionInv ((unlockEncryption s p sr lr n i).1) := by
  obtain ⟨h1, h2, h3⟩ := h
  cases hauth : s.isAuthenticated with
  | false =>
      have hnone : s.userSub = none := (h2 hauth).1
      rw [unlockEncryption_userSub_none s p sr lr n i hnone]
      exact ⟨h1, fun hA => ⟨hnone, (h2 hauth).2⟩, fun hA => h3 hA⟩
  | true =>
      obtain ⟨pa, pu, pk⟩ := unlock_proj s p sr lr n i
      refine ⟨?_, ?_, ?_⟩
      · rcases pk with ⟨k1, k2⟩ | ⟨k1, k2⟩
        · rw [k1, k2]; exact h1
        · rw [k2]; exact iff_of_true k1 rfl
      · intro hA
        rw [pa, hauth] at hA
        exact absurd hA (by simp)
      · intro _
        rw [pu]
        exact h3 hauth

theorem signOut_inv (s : SessionState) (resp : StatusResp) :
    SessionInv (lockEncryption
      (checkSetup { s with isAuthenticated := false, userSub := none } resp)) := by
  have hc : checkSetup { s with isAuthenticated := false, userSub := none } resp =
      { s with isAuthenticated := false, userSub := none, isSetup := false,
               isUnlocked := false, hasCheckedSetup := false } := by
    unfold checkSetup
    rw [if_pos (Or.inl rfl)]
  rw [hc]
  refine ⟨by simp [lockEncryption], ?_, ?_⟩
  · intro _
    exact ⟨rfl, rfl⟩
  · intro hA
    exact absurd hA (by simp [lockEncryption])

theorem stepEvent_inv (s : SessionState) (e : Event) (h : SessionInv s) :
    SessionInv (stepEvent s e) := by
  cases e with
  | signIn u =>
      obtain ⟨h1, h2, h3⟩ := h
      by_cases hu : u = ""
      · simp only [stepEvent]
        rw [if_pos hu]
        exact ⟨h1, h2, h3⟩
      · simp only [stepEvent]
        rw [if_neg hu]
        refine ⟨h1, ?_, ?_⟩
        · intro hA
          exact absurd hA (by simp)
        · intro _
          exact ⟨u, rfl, hu⟩
  | runCheckSetup resp => exact checkSetup_inv s resp h
  | setup p sb n i ok => exact setupEncryption_inv s p sb n i ok h
  | unlock p sr lr n i => exact unlockEncryption_inv s p sr lr n i h
  | lock => exact lockEncryption_inv s h
  | signOut resp => exact signOut_inv s resp

theorem reachable_inv (s : SessionState) (h : Reachable s) : SessionInv s := by
  induction h with
  | init =>
      exact ⟨by simp [initialState], fun _ => ⟨rfl, rfl⟩,
        fun hA => absurd hA (by simp [initialState])⟩
  | next s0 e _ ih => exact stepEvent_inv s0 e ih

/-- C8: in every reachable state of the session manager, a key exists in
memory if and only if the session is unlocked; every operation — setup,
unlock, lock, the checkSetup effect, sign-in and sign-out — preserves
this invariant along any event sequence from the pre-sign-in state. -/
theorem key_in_memory_iff_unlocked (s : SessionState) (h : Reachable s) :
    s.encryptionKey ≠ none ↔ s.isUnlocked = true :=
  (reachable_inv s h).1

/-- C8 witness at the initial (reachable) state. -/
theorem key_in_memory_iff_unlocked_witness :
    initialState.encryptionKey ≠ none ↔ initialState.isUnlocked = true :=
  key_in_memory_iff_unlocked initialState Reachable.init

end PhishSafe
